import Mathlib

/-
  Verification of the object-lifecycle and data-marshalling layer of the
  python-igraph binding (src/src/graphobject.c) against its specification.

  The development shallowly embeds the binding functions of graphobject.c.
  Collaborating code that lives in other files of the repository
  (convert.c, the attribute handler of igraphmodule.c) and the external
  native engine are modelled from the specification text; each such
  definition carries a doc comment starting with "Modelled from the spec:".
-/

namespace IGraphBinding

/-- Attribute values stored in the three attribute hashes. The binding stores
arbitrary host objects; an integer payload suffices for the properties proved
here. A vertex/edge-scope array stores one optional (possibly absent) value
per vertex/edge. -/
abbrev Value := Int

/-- The native graph structure (igraph_t) as observable through the binding:
vertex count, edge list and directedness (igraph_vcount, igraph_ecount,
igraph_is_directed). -/
structure IGraphT where
  vcount : Nat
  edges : List (Nat × Nat)
  directed : Bool
deriving DecidableEq

/-- Number of edges of the native graph (igraph_ecount). -/
def IGraphT.ecount (g : IGraphT) : Nat := g.edges.length

/-- The three attribute hashes attached to a graph handle via g.attr:
index ATTRHASH_IDX_GRAPH holds graph-scope values, ATTRHASH_IDX_VERTEX
vertex-scope arrays, ATTRHASH_IDX_EDGE edge-scope arrays. -/
structure AttributeStore where
  graphAttrs : List (String × Value)
  vertexAttrs : List (String × List (Option Value))
  edgeAttrs : List (String × List (Option Value))
deriving DecidableEq

/-- The empty attribute store: three empty hashes, as set up for a freshly
created handle (igraphmodule_Graph_init_internal leaves no attributes). -/
def AttributeStore.empty : AttributeStore := ⟨[], [], []⟩

/-- A graph handle's state: the native structure plus its attribute store. -/
structure GraphState where
  g : IGraphT
  attrs : AttributeStore
deriving DecidableEq

/-- Host-level error classification of the binding (§7 of the spec):
validation, conversion, engine and memory errors. -/
inductive BindErr
| validationError
| conversionError
| engineError
| memoryError
deriving DecidableEq

/-- State left behind by a fallible binding call: the new state on success,
the old state on failure (the native engine mutates nothing when it fails). -/
def applyResult (s : GraphState) : Except BindErr GraphState → GraphState
  | .ok s2 => s2
  | .error _ => s

/-- The consistency invariant of §3: every vertex-scope attribute array has
length equal to the current vertex count and every edge-scope array has
length equal to the current edge count. -/
def WF (s : GraphState) : Prop :=
  (∀ kv ∈ s.attrs.vertexAttrs, (kv.2 : List (Option Value)).length = s.g.vcount) ∧
  (∀ kv ∈ s.attrs.edgeAttrs, (kv.2 : List (Option Value)).length = s.g.ecount)

instance (s : GraphState) : Decidable (WF s) := by
  unfold WF; infer_instance

/-! Native engine calls together with the binding's attribute-handler hooks.
The hooks live in igraphmodule.c, which is not under src/, so they are
modelled from the specification (§4.3). -/

/-- Modelled from the spec: igraph_add_vertices together with the binding's
vertex-addition attribute hook (igraphmodule.c, not under src/). Appends n
vertices; every existing vertex-scope attribute array is extended by n
default (absent) entries (§4.3). Cannot fail for n ≥ 0. -/
def igraph_add_vertices (s : GraphState) (n : Nat) : GraphState :=
  { g := { s.g with vcount := s.g.vcount + n },
    attrs := { s.attrs with
      vertexAttrs := s.attrs.vertexAttrs.map
        (fun kv => (kv.1, kv.2 ++ List.replicate n none)) } }

/-- Modelled from the spec: igraph_add_edges together with the binding's
edge-addition attribute hook (igraphmodule.c, not under src/). Fails with
graph unchanged when an endpoint is out of range; otherwise appends the
edges and extends every edge-scope attribute array by matching default
entries (§4.1, §4.3). -/
def igraph_add_edges (s : GraphState) (pairs : List (Nat × Nat)) :
    Except BindErr GraphState :=
  if pairs.all (fun e => e.1 < s.g.vcount && e.2 < s.g.vcount) then
    .ok { g := { s.g with edges := s.g.edges ++ pairs },
          attrs := { s.attrs with
            edgeAttrs := s.attrs.edgeAttrs.map
              (fun kv => (kv.1, kv.2 ++ List.replicate pairs.length none)) } }
  else .error .engineError

/-- Vertices surviving a deletion, in the engine's renumbering order: the
vertices not selected for deletion keep their relative order, and the new
id of a surviving vertex is its position in this list. -/
def survivors (vcount : Nat) (sel : List Nat) : List Nat :=
  (List.range vcount).filter (fun v => !(sel.contains v))

/-- An edge survives a vertex deletion when both endpoints survive. -/
def keepEdge (surv : List Nat) (e : Nat × Nat) : Bool :=
  surv.contains e.1 && surv.contains e.2

/-- Filters an edge-scope attribute array in step with the edge list: the
entry aligned with each surviving edge survives. -/
def filterAligned (keep : Nat × Nat → Bool) :
    List (Nat × Nat) → List (Option Value) → List (Option Value)
  | e :: es, a :: rest =>
      if keep e then a :: filterAligned keep es rest else filterAligned keep es rest
  | _, _ => []

/-- Modelled from the spec: igraph_delete_vertices together with the
binding's deletion attribute hook (igraphmodule.c, not under src/). Fails
with the graph unchanged when a selected id is out of range; otherwise
removes the selected vertices and their incident edges, renumbers the
survivors, and compacts every vertex- and edge-scope attribute array along
the same renumbering (§4.1, §4.3). -/
def igraph_delete_vertices (s : GraphState) (sel : List Nat) :
    Except BindErr GraphState :=
  if sel.all (fun i => i < s.g.vcount) then
    let surv := survivors s.g.vcount sel
    .ok { g := { vcount := surv.length,
                 edges := (s.g.edges.filter (keepEdge surv)).map
                   (fun e => (surv.indexOf e.1, surv.indexOf e.2)),
                 directed := s.g.directed },
          attrs := { s.attrs with
            vertexAttrs := s.attrs.vertexAttrs.map
              (fun kv => (kv.1, surv.map (fun v => kv.2.getD v none))),
            edgeAttrs := s.attrs.edgeAttrs.map
              (fun kv => (kv.1, filterAligned (keepEdge surv) s.g.edges kv.2)) } }
  else .error .engineError

/-- Drops the entries of a list whose positions (counted from i) occur in
sel; used to model edge deletion by index. -/
def removeIdxAux {α : Type} (sel : List Nat) : Nat → List α → List α
  | _, [] => []
  | i, a :: rest =>
      if sel.contains i then removeIdxAux sel (i + 1) rest
      else a :: removeIdxAux sel (i + 1) rest

/-- Modelled from the spec: igraph_delete_edges on an explicit edge-id
selector (the by_index branch of the binding) together with the deletion
attribute hook (igraphmodule.c, not under src/). Fails with the graph
unchanged when an id is out of range; otherwise removes the selected edges
and compacts every edge-scope attribute array identically (§4.1, §4.3). -/
def igraph_delete_edges (s : GraphState) (sel : List Nat) :
    Except BindErr GraphState :=
  if sel.all (fun i => i < s.g.ecount) then
    .ok { g := { s.g with edges := removeIdxAux sel 0 s.g.edges },
          attrs := { s.attrs with
            edgeAttrs := s.attrs.edgeAttrs.map
              (fun kv => (kv.1, removeIdxAux sel 0 kv.2)) } }
  else .error .engineError

/-! Conversion layer (convert.c, not under src/), modelled from §4.4. -/

/-- Modelled from the spec: igraphmodule_PyList_to_vector_t (convert.c, not
under src/) with its non-negativity check enabled, as used by
add_vertices/delete_vertices/delete_edges: converts a host list of
integers to a native index vector, failing closed before any native call
when an element is negative (§4.4). -/
def igraphmodule_PyList_to_vector_t (l : List Int) : Except BindErr (List Nat) :=
  if l.all (fun x => 0 ≤ x) then .ok (l.map Int.toNat)
  else .error .conversionError

/-- Modelled from the spec: the edge-pair variant of
igraphmodule_PyList_to_vector_t (convert.c, not under src/): converts host
vertex-id pairs, failing closed when a component is negative (§4.4). -/
def igraphmodule_PyList_to_vector_t_pairs (pairs : List (Int × Int)) :
    Except BindErr (List (Nat × Nat)) :=
  if pairs.all (fun e => 0 ≤ e.1 && 0 ≤ e.2) then
    .ok (pairs.map (fun e => (e.1.toNat, e.2.toNat)))
  else .error .conversionError

/-! Binding entry points embedded from graphobject.c. -/

/-- Embeds igraphmodule_Graph_add_vertices (graphobject.c lines 307-328):
a negative count is rejected with a host AssertionError before the native
engine is reached; otherwise igraph_add_vertices is invoked. -/
def igraphmodule_Graph_add_vertices (s : GraphState) (n : Int) :
    Except BindErr GraphState :=
  if n < 0 then .error .validationError
  else .ok (igraph_add_vertices s n.toNat)

/-- Native calls performed by igraphmodule_Graph_add_vertices on the given
argument (graphobject.c lines 313-323): none when the negative-count check
fires, the single engine call otherwise. -/
def igraphmodule_Graph_add_vertices_nativeCalls (n : Int) : List String :=
  if n < 0 then [] else ["igraph_add_vertices"]

/-- Embeds igraphmodule_Graph_delete_vertices (graphobject.c lines 338-365):
the host list is converted (failing closed), then igraph_delete_vertices
does the work; on native failure the handle is left unchanged. -/
def igraphmodule_Graph_delete_vertices (s : GraphState) (list : List Int) :
    Except BindErr GraphState :=
  match igraphmodule_PyList_to_vector_t list with
  | .error e => .error e
  | .ok v => igraph_delete_vertices s v

/-- Embeds igraphmodule_Graph_add_edges (graphobject.c lines 375-409):
the host pair list is converted (failing closed), then igraph_add_edges
does the work. -/
def igraphmodule_Graph_add_edges (s : GraphState) (pairs : List (Int × Int)) :
    Except BindErr GraphState :=
  match igraphmodule_PyList_to_vector_t_pairs pairs with
  | .error e => .error e
  | .ok v => igraph_add_edges s v

/-- Embeds the by_index branch of igraphmodule_Graph_delete_edges
(graphobject.c lines 419-469): the host id list is converted (failing
closed), then igraph_delete_edges does the work. -/
def igraphmodule_Graph_delete_edges (s : GraphState) (list : List Int) :
    Except BindErr GraphState :=
  match igraphmodule_PyList_to_vector_t list with
  | .error e => .error e
  | .ok v => igraph_delete_edges s v

/-- Replaces the array bound to key k in a vertex/edge attribute hash. -/
def setAttrArray (store : List (String × List (Option Value))) (k : String)
    (vals : List (Option Value)) : List (String × List (Option Value)) :=
  store.filter (fun kv => kv.1 ≠ k) ++ [(k, vals)]

/-- Modelled from the spec: the vertex-scope attribute set operation of the
attribute protocol (vertexseqobject.c / igraphmodule.c, not under src/):
stores a full array for a key, rejecting an array whose length differs
from the vertex count (§4.3). -/
def attrStore_set_vertex (s : GraphState) (k : String)
    (vals : List (Option Value)) : Except BindErr GraphState :=
  if vals.length = s.g.vcount then
    .ok { s with attrs := { s.attrs with
            vertexAttrs := setAttrArray s.attrs.vertexAttrs k vals } }
  else .error .validationError

/-- Modelled from the spec: the edge-scope attribute set operation of the
attribute protocol (edgeseqobject.c / igraphmodule.c, not under src/):
stores a full array for a key, rejecting an array whose length differs
from the edge count (§4.3). -/
def attrStore_set_edge (s : GraphState) (k : String)
    (vals : List (Option Value)) : Except BindErr GraphState :=
  if vals.length = s.g.ecount then
    .ok { s with attrs := { s.attrs with
            edgeAttrs := setAttrArray s.attrs.edgeAttrs k vals } }
  else .error .validationError

/-- The structural and attribute operations reachable from host code that
add or delete vertices/edges, or install attribute arrays. -/
inductive GraphOp
| addVertices (n : Int)
| deleteVertices (sel : List Int)
| addEdges (pairs : List (Int × Int))
| deleteEdges (sel : List Int)
| setVertexAttr (key : String) (vals : List (Option Value))
| setEdgeAttr (key : String) (vals : List (Option Value))

/-- One host-observable step: a failed call leaves the handle unchanged. -/
def stepOp (s : GraphState) : GraphOp → GraphState
  | .addVertices n => applyResult s (igraphmodule_Graph_add_vertices s n)
  | .deleteVertices sel => applyResult s (igraphmodule_Graph_delete_vertices s sel)
  | .addEdges ps => applyResult s (igraphmodule_Graph_add_edges s ps)
  | .deleteEdges sel => applyResult s (igraphmodule_Graph_delete_edges s sel)
  | .setVertexAttr k vals => applyResult s (attrStore_set_vertex s k vals)
  | .setEdgeAttr k vals => applyResult s (attrStore_set_edge s k vals)

/-- Runs a sequence of host operations on a handle. -/
def runOps (s : GraphState) (ops : List GraphOp) : GraphState :=
  ops.foldl stepOp s

/-! Vertex selector resolution and the degree query (C5). -/

/-- A host value passed as the vertices argument of a read query: Py_None,
a scalar index, or a collection of indices. -/
inductive VsInput
| noneInput
| singleIdx (i : Nat)
| listIdx (l : List Nat)

/-- Modelled from the spec: igraphmodule_PyObject_to_vs_t (convert.c, not
under src/): Py_None resolves to the all-vertices selector with
return_single false; a scalar index resolves to a one-vertex selector with
return_single true; a collection resolves to an explicit-list selector
with return_single false (§4.4). Returns the resolved index list and the
return_single flag. -/
def igraphmodule_PyObject_to_vs_t (v : VsInput) (vcount : Nat) :
    List Nat × Bool :=
  match v with
  | .noneInput => (List.range vcount, false)
  | .singleIdx i => ([i], true)
  | .listIdx l => (l, false)

/-- Modelled from the spec: the degree of one vertex in the native engine
(mode ALL); a self-loop counts twice when loops are counted, once per
incident endpoint otherwise never. -/
def igraph_degree_one (g : IGraphT) (loops : Bool) (v : Nat) : Nat :=
  g.edges.foldl
    (fun acc e =>
      if e.1 = v ∧ e.2 = v then (if loops then acc + 2 else acc)
      else if e.1 = v ∨ e.2 = v then acc + 1
      else acc) 0

/-- Modelled from the spec: igraph_degree (native engine): fails when a
selected vertex is out of range, otherwise returns one degree per selected
vertex, in selector order. -/
def igraph_degree (g : IGraphT) (vs : List Nat) (loops : Bool) :
    Except BindErr (List Nat) :=
  if vs.all (fun v => v < g.vcount) then
    .ok (vs.map (igraph_degree_one g loops))
  else .error .engineError

/-- Result shape of the degree binding: a host integer, a host list, or a
raised error. -/
inductive PyDegreeResult
| scalar (n : Nat)
| listRes (l : List Nat)
| errRes (e : BindErr)
deriving DecidableEq

/-- Embeds igraphmodule_Graph_degree (graphobject.c lines 476-529): the
vertices argument is resolved to a selector plus the return_single flag;
after the native call, return_single true unwraps element 0 of the result
vector, return_single false converts the whole vector to a host list. -/
def igraphmodule_Graph_degree (g : IGraphT) (input : VsInput) (loops : Bool) :
    PyDegreeResult :=
  let rs := igraphmodule_PyObject_to_vs_t input g.vcount
  match igraph_degree g rs.1 loops with
  | .error e => .errRes e
  | .ok result =>
      if rs.2 then .scalar (result.headD 0) else .listRes result

/-! The n-ary graph operators union and disjoint_union (C7, C8). -/

/-- An element produced by iterating a host iterable: either a Graph
instance or some other host object. -/
inductive PyElem
| graphElem (g : IGraphT)
| otherElem
deriving DecidableEq

/-- The aspects of the host argument of an n-ary operator that the dispatch
inspects: the outcome of PyObject_GetIter (the iterated elements, when the
value is iterable) and of the Graph type check. A Graph instance is not
iterable in this binding, so it appears with asIterable none. -/
structure PyArg where
  asGraph : Option IGraphT
  asIterable : Option (List PyElem)

/-- Wraps a Graph instance as an operator argument. -/
def PyArg.ofGraph (g : IGraphT) : PyArg := ⟨some g, none⟩

/-- Modelled from the spec: igraphmodule_PyIter_to_vector_ptr_t (convert.c,
not under src/): drains the iterator into a list of native graphs, failing
when an element is not a Graph instance (§4.4). -/
def igraphmodule_PyIter_to_vector_ptr_t (elems : List PyElem) :
    Option (List IGraphT) :=
  elems.foldr
    (fun e acc =>
      match e, acc with
      | .graphElem g, some gs => some (g :: gs)
      | _, _ => none)
    (some [])

/-- Modelled from the spec: igraph_disjoint_union (native engine): the
result has the two vertex sets side by side (second operand shifted) and
all edges of both operands. -/
def igraph_disjoint_union2 (g1 g2 : IGraphT) : IGraphT :=
  { vcount := g1.vcount + g2.vcount,
    edges := g1.edges ++ g2.edges.map (fun e => (e.1 + g1.vcount, e.2 + g1.vcount)),
    directed := g1.directed || g2.directed }

/-- Modelled from the spec: igraph_disjoint_union_many (native engine):
folds the pairwise disjoint union over the collected graphs, starting from
the empty graph. -/
def igraph_disjoint_union_many (gs : List IGraphT) : IGraphT :=
  gs.foldl igraph_disjoint_union2 ⟨0, [], false⟩

/-- Modelled from the spec: igraph_union (native engine): the vertex set is
the larger of the two and the edge set is the union. -/
def igraph_union2 (g1 g2 : IGraphT) : IGraphT :=
  { vcount := max g1.vcount g2.vcount,
    edges := g1.edges ++ g2.edges.filter (fun e => !(g1.edges.contains e)),
    directed := g1.directed || g2.directed }

/-- Modelled from the spec: igraph_union_many (native engine): folds the
pairwise union over the collected graphs, starting from the empty graph. -/
def igraph_union_many (gs : List IGraphT) : IGraphT :=
  gs.foldl igraph_union2 ⟨0, [], false⟩

/-- Outcome of an n-ary operator call at the binding boundary: a fresh
handle, Py_NotImplemented (which makes the host raise a TypeError for a
non-graph, non-iterable argument), or a failed iterable conversion. -/
inductive NaryResult
| graphResult (s : GraphState)
| notImplemented
| conversionFailed
deriving DecidableEq

/-- Embeds igraphmodule_Graph_disjoint_union (graphobject.c lines
3893-3942): PyObject_GetIter is tried first; an iterable argument is
drained into a graph list and handed to igraph_disjoint_union_many (self
is not included); a non-iterable argument must be a Graph instance, giving
the pairwise native call, and otherwise Py_NotImplemented is returned. The
fresh handle passes through igraphmodule_Graph_init_internal, so its
attribute store is empty in all three scopes (no attribute copy). -/
def igraphmodule_Graph_disjoint_union (self : IGraphT) (other : PyArg) :
    NaryResult :=
  match other.asIterable with
  | some elems =>
      match igraphmodule_PyIter_to_vector_ptr_t elems with
      | none => .conversionFailed
      | some gs => .graphResult ⟨igraph_disjoint_union_many gs, AttributeStore.empty⟩
  | none =>
      match other.asGraph with
      | some o => .graphResult ⟨igraph_disjoint_union2 self o, AttributeStore.empty⟩
      | none => .notImplemented

/-- Embeds igraphmodule_Graph_union (graphobject.c lines 3947-3996): the
same dispatch as disjoint_union, invoking igraph_union_many or
igraph_union; the fresh handle again carries an empty attribute store. -/
def igraphmodule_Graph_union (self : IGraphT) (other : PyArg) : NaryResult :=
  match other.asIterable with
  | some elems =>
      match igraphmodule_PyIter_to_vector_ptr_t elems with
      | none => .conversionFailed
      | some gs => .graphResult ⟨igraph_union_many gs, AttributeStore.empty⟩
  | none =>
      match other.asGraph with
      | some o => .graphResult ⟨igraph_union2 self o, AttributeStore.empty⟩
      | none => .notImplemented

/-- Modelled from the spec: igraph_intersection (native engine): the vertex
set is the larger of the two and the edge set keeps the edges present in
both operands. -/
def igraph_intersection2 (g1 g2 : IGraphT) : IGraphT :=
  { vcount := max g1.vcount g2.vcount,
    edges := g1.edges.filter (fun e => g2.edges.contains e),
    directed := g1.directed || g2.directed }

/-- Modelled from the spec: igraph_intersection_many (native engine):
intersects all the collected graphs pairwise; an empty collection yields
the empty graph. -/
def igraph_intersection_many (gs : List IGraphT) : IGraphT :=
  match gs with
  | [] => ⟨0, [], false⟩
  | g :: rest => rest.foldl igraph_intersection2 g

/-- Embeds igraphmodule_Graph_intersection (graphobject.c lines 4001-4050):
the same dispatch as disjoint_union — PyObject_GetIter first, then the
Graph type check, else Py_NotImplemented — invoking
igraph_intersection_many or igraph_intersection; the fresh handle again
carries an empty attribute store. -/
def igraphmodule_Graph_intersection (self : IGraphT) (other : PyArg) :
    NaryResult :=
  match other.asIterable with
  | some elems =>
      match igraphmodule_PyIter_to_vector_ptr_t elems with
      | none => .conversionFailed
      | some gs => .graphResult ⟨igraph_intersection_many gs, AttributeStore.empty⟩
  | none =>
      match other.asGraph with
      | some o => .graphResult ⟨igraph_intersection2 self o, AttributeStore.empty⟩
      | none => .notImplemented

/-! GC integration: traverse (C2) and dealloc (C3). -/

/-- The host references a graph handle can hold: the registered destructor
callback, the three attribute hashes behind g.attr, and the cached
vertex/edge sequence views. -/
inductive PyRef
| destructorRef
| graphAttrHash
| vertexAttrHash
| edgeAttrHash
| vseqRef
| eseqRef
deriving DecidableEq

/-- The nullable host-reference fields of a handle that the GC protocol
inspects: destructor, g.attr, vseq, eseq, weakreflist, plus whether the
destructor passes PyCallable_Check. -/
structure GraphHandleRefs where
  hasDestructor : Bool
  hasAttrTable : Bool
  hasVseq : Bool
  hasEseq : Bool
  hasWeakrefs : Bool
  destructorCallable : Bool
deriving DecidableEq

/-- Embeds igraphmodule_Graph_traverse (graphobject.c lines 129-155): the
visit order of host references. The destructor is visited when present;
when g.attr is present the loop for i in 0..2 visits all three attribute
hashes (graph, vertex and edge scope). The vseq/eseq visits are commented
out in the source, so the cached views are never visited. -/
def igraphmodule_Graph_traverse (h : GraphHandleRefs) : List PyRef :=
  (if h.hasDestructor then [.destructorRef] else []) ++
  (if h.hasAttrTable then [.graphAttrHash, .vertexAttrHash, .edgeAttrHash] else [])

/-- The observable steps of handle teardown. -/
inductive LifecycleEvent
| clearWeakRefs
| nativeDestroy
| callFinalizer
| dropVseq
| dropEseq
| dropDestructor
| gcDel
deriving DecidableEq

/-- Embeds igraphmodule_Graph_clear (graphobject.c lines 96-120): drops the
cached vertex view, the cached edge view and the destructor reference, in
that order. -/
def igraphmodule_Graph_clear_events : List LifecycleEvent :=
  [.dropVseq, .dropEseq, .dropDestructor]

/-- Embeds igraphmodule_Graph_dealloc (graphobject.c lines 161-184): the
teardown order of a handle. Weak references are cleared first (when the
weakref list is non-null), then igraph_destroy releases the native graph,
then the destructor callback is invoked (when callable), then
igraphmodule_Graph_clear drops the cached views and the callback
reference, and finally the host object is freed. -/
def igraphmodule_Graph_dealloc_events (h : GraphHandleRefs) :
    List LifecycleEvent :=
  (if h.hasWeakrefs then [.clearWeakRefs] else []) ++
  [.nativeDestroy] ++
  (if h.destructorCallable then [.callFinalizer] else []) ++
  igraphmodule_Graph_clear_events ++ [.gcDel]

/-! BFS root validation (C10). -/

/-- Outcome of the host-side argument handling of the bfs binding: either a
validation error raised on the host side, or the root id handed on to the
native igraph_bfs call. -/
inductive BfsOutcome
| hostError
| handedToNative (vid : Int)
deriving DecidableEq

/-- Embeds the root validation of igraphmodule_Graph_bfs (graphobject.c
lines 4178-4194): the check is vid < 0 or vid > igraph_vcount, so ids 0..V
inclusive pass and everything else raises ValueError before any native
call; a passing id is handed to igraph_bfs. -/
def igraphmodule_Graph_bfs (vcount : Nat) (vid : Int) : BfsOutcome :=
  if vid < 0 ∨ (vcount : Int) < vid then .hostError
  else .handedToNative vid

/-! ErrorBridge timing (C9): the order of native calls, error capture and
buffer destruction on failure paths. -/

/-- One step on a binding failure path: a successful native call, the
failing native call, the error-slot capture performed by
igraphmodule_handle_igraph_error, destruction of a conversion
buffer/selector, or the final NULL return that raises on the host side. -/
inductive ErrEvent
| nativeOk (name : String)
| nativeFail (name : String)
| errCapture
| cleanup (name : String)
| hostRaise
deriving DecidableEq

/-- Recognizes the failing native call in a trace. -/
def isNativeFail : ErrEvent → Bool
  | .nativeFail _ => true
  | _ => false

/-- Holds when the error-slot capture is the very next step after the
failing native call, so no cleanup call can overwrite the slot first;
vacuously true of traces with no failing call. -/
def captureImmediatelyAfterFailure (t : List ErrEvent) : Bool :=
  match t.dropWhile (fun e => !(isNativeFail e)) with
  | [] => true
  | _ :: ErrEvent.errCapture :: _ => true
  | _ => false

/-- Event order on the failure path of igraphmodule_Graph_delete_vertices
where igraph_delete_vertices fails (graphobject.c lines 353-358): the
error is captured at line 355, before the conversion vector v is destroyed
at line 356. -/
def delete_vertices_failureTrace : List ErrEvent :=
  [.nativeFail "igraph_delete_vertices", .errCapture, .cleanup "v", .hostRaise]

/-- Event order on the failure path of igraphmodule_Graph_get_adjacency
where igraph_get_adjacency fails (graphobject.c lines 3128-3133): the
error is captured at line 3130, before the matrix m is destroyed at line
3131. -/
def get_adjacency_failureTrace : List ErrEvent :=
  [.nativeOk "igraph_matrix_init", .nativeFail "igraph_get_adjacency",
   .errCapture, .cleanup "m", .hostRaise]

/-- Event order on the failure path of igraphmodule_Graph_betweenness where
igraph_betweenness fails (graphobject.c lines 1849-1852): the selector vs
is destroyed at line 1850, and the error slot is read only afterwards at
line 1851. -/
def betweenness_failureTrace : List ErrEvent :=
  [.nativeOk "igraph_vector_init", .nativeFail "igraph_betweenness",
   .cleanup "vs", .errCapture, .hostRaise]

/-- Event order on the failure path of igraphmodule_Graph_maxflow_value
where igraph_maxflow_value fails (graphobject.c lines 4246-4249): the
capacity vector is destroyed at line 4247, and the error slot is read only
afterwards at line 4248. -/
def maxflow_value_failureTrace : List ErrEvent :=
  [.nativeFail "igraph_maxflow_value", .cleanup "capacity_vector",
   .errCapture, .hostRaise]

/-- The embedded native-failure paths of the binding operations examined
for the error-capture timing property. -/
def bindingFailureTraces : List (List ErrEvent) :=
  [delete_vertices_failureTrace, get_adjacency_failureTrace,
   betweenness_failureTrace, maxflow_value_failureTrace]

/-! Helper lemmas about the aligned compaction of attribute arrays. -/

/-- Compacting an array aligned with the edge list yields one entry per
surviving edge. -/
lemma filterAligned_length (keep : Nat × Nat → Bool) :
    ∀ (es : List (Nat × Nat)) (arr : List (Option Value)),
      arr.length = es.length →
      (filterAligned keep es arr).length = (es.filter keep).length := by
  intro es
  induction es with
  | nil => intro arr _; simp [filterAligned]
  | cons e es ih =>
    intro arr h
    cases arr with
    | nil => simp at h
    | cons a rest =>
      simp only [List.length_cons, Nat.succ.injEq] at h
      cases hk : keep e <;>
        simp [filterAligned, hk, List.filter_cons, ih rest h]

/-- Removing the same index set from two lists of equal length leaves lists
of equal length. -/
lemma removeIdxAux_length_eq {α β : Type} (sel : List Nat) :
    ∀ (l1 : List α) (l2 : List β) (i : Nat), l1.length = l2.length →
      (removeIdxAux sel i l1).length = (removeIdxAux sel i l2).length := by
  intro l1
  induction l1 with
  | nil =>
    intro l2 i h
    cases l2 with
    | nil => rfl
    | cons b rest => simp at h
  | cons a rest ih =>
    intro l2 i h
    cases l2 with
    | nil => simp at h
    | cons b rest2 =>
      simp only [List.length_cons, Nat.succ.injEq] at h
      by_cases hc : i ∈ sel <;>
        simp [removeIdxAux, List.contains, List.elem_eq_mem, hc,
          ih rest2 (i + 1) h]

/-! Preservation of the length invariant by each host-reachable operation. -/

/-- Adding vertices preserves the invariant: every vertex array grows by
the same n entries as the vertex count, and edges are untouched. -/
lemma WF_add_vertices (s : GraphState) (n : Nat) (h : WF s) :
    WF (igraph_add_vertices s n) := by
  obtain ⟨hv, he⟩ := h
  constructor
  · intro kv hkv
    simp only [igraph_add_vertices, List.mem_map] at hkv
    obtain ⟨kv0, hkv0, rfl⟩ := hkv
    simp [igraph_add_vertices, hv kv0 hkv0]
  · intro kv hkv
    simp only [igraph_add_vertices] at hkv
    simpa [igraph_add_vertices, IGraphT.ecount] using he kv hkv

/-- Adding edges preserves the invariant (on success the edge arrays grow
with the edge count, on failure nothing changes). -/
lemma WF_add_edges (s : GraphState) (pairs : List (Nat × Nat)) (h : WF s) :
    WF (applyResult s (igraph_add_edges s pairs)) := by
  obtain ⟨hv, he⟩ := h
  unfold igraph_add_edges
  split
  · constructor
    · intro kv hkv
      simp only [applyResult] at hkv
      exact hv kv hkv
    · intro kv hkv
      simp only [applyResult, List.mem_map] at hkv
      obtain ⟨kv0, hkv0, rfl⟩ := hkv
      simp [applyResult, IGraphT.ecount, he kv0 hkv0]
  · exact ⟨hv, he⟩

/-- Deleting vertices preserves the invariant: vertex arrays are rebuilt
along the survivor list and edge arrays are compacted in step with the
surviving edges. -/
lemma WF_delete_vertices (s : GraphState) (sel : List Nat) (h : WF s) :
    WF (applyResult s (igraph_delete_vertices s sel)) := by
  obtain ⟨hv, he⟩ := h
  unfold igraph_delete_vertices
  split
  · constructor
    · intro kv hkv
      simp only [applyResult, List.mem_map] at hkv
      obtain ⟨kv0, _, rfl⟩ := hkv
      simp [applyResult]
    · intro kv hkv
      simp only [applyResult, List.mem_map] at hkv
      obtain ⟨kv0, hkv0, rfl⟩ := hkv
      have hlen : kv0.2.length = s.g.edges.length := he kv0 hkv0
      simp [applyResult, IGraphT.ecount,
        filterAligned_length (keepEdge (survivors s.g.vcount sel)) s.g.edges kv0.2 hlen]
  · exact ⟨hv, he⟩

/-- Deleting edges preserves the invariant: the edge list and every edge
array lose exactly the entries at the selected indices. -/
lemma WF_delete_edges (s : GraphState) (sel : List Nat) (h : WF s) :
    WF (applyResult s (igraph_delete_edges s sel)) := by
  obtain ⟨hv, he⟩ := h
  unfold igraph_delete_edges
  split
  · constructor
    · intro kv hkv
      simp only [applyResult] at hkv
      exact hv kv hkv
    · intro kv hkv
      simp only [applyResult, List.mem_map] at hkv
      obtain ⟨kv0, hkv0, rfl⟩ := hkv
      have hlen : kv0.2.length = s.g.edges.length := he kv0 hkv0
      simp [applyResult, IGraphT.ecount,
        removeIdxAux_length_eq sel kv0.2 s.g.edges 0 hlen]
  · exact ⟨hv, he⟩

/-- Installing a vertex attribute array preserves the invariant: the new
array is accepted only at the current vertex count. -/
lemma WF_set_vertex_attr (s : GraphState) (k : String)
    (vals : List (Option Value)) (h : WF s) :
    WF (applyResult s (attrStore_set_vertex s k vals)) := by
  obtain ⟨hv, he⟩ := h
  unfold attrStore_set_vertex
  split
  · next hlen =>
    constructor
    · intro kv hkv
      simp only [applyResult, setAttrArray, List.mem_append, List.mem_filter,
        List.mem_singleton] at hkv
      rcases hkv with ⟨hmem, _⟩ | rfl
      · exact hv kv hmem
      · simpa using hlen
    · intro kv hkv
      simp only [applyResult] at hkv
      exact he kv hkv
  · exact ⟨hv, he⟩

/-- Installing an edge attribute array preserves the invariant: the new
array is accepted only at the current edge count. -/
lemma WF_set_edge_attr (s : GraphState) (k : String)
    (vals : List (Option Value)) (h : WF s) :
    WF (applyResult s (attrStore_set_edge s k vals)) := by
  obtain ⟨hv, he⟩ := h
  unfold attrStore_set_edge
  split
  · next hlen =>
    constructor
    · intro kv hkv
      simp only [applyResult] at hkv
      exact hv kv hkv
    · intro kv hkv
      simp only [applyResult, setAttrArray, List.mem_append, List.mem_filter,
        List.mem_singleton] at hkv
      rcases hkv with ⟨hmem, _⟩ | rfl
      · exact he kv hmem
      · simpa using hlen
  · exact ⟨hv, he⟩

/-- The add_vertices entry point preserves the invariant: the rejection
path leaves the handle alone and the success path is WF_add_vertices. -/
lemma WF_binding_add_vertices (s : GraphState) (n : Int) (h : WF s) :
    WF (applyResult s (igraphmodule_Graph_add_vertices s n)) := by
  unfold igraphmodule_Graph_add_vertices
  split
  · simpa [applyResult] using h
  · simpa [applyResult] using WF_add_vertices s n.toNat h

/-- Every host-observable step preserves the length invariant. -/
lemma WF_stepOp (s : GraphState) (op : GraphOp) (h : WF s) :
    WF (stepOp s op) := by
  cases op with
  | addVertices n => exact WF_binding_add_vertices s n h
  | deleteVertices sel =>
    show WF (applyResult s (igraphmodule_Graph_delete_vertices s sel))
    unfold igraphmodule_Graph_delete_vertices
    cases hconv : igraphmodule_PyList_to_vector_t sel with
    | error e => simp only [hconv]; simpa [applyResult] using h
    | ok v => simp only [hconv]; exact WF_delete_vertices s v h
  | addEdges pairs =>
    show WF (applyResult s (igraphmodule_Graph_add_edges s pairs))
    unfold igraphmodule_Graph_add_edges
    cases hconv : igraphmodule_PyList_to_vector_t_pairs pairs with
    | error e => simp only [hconv]; simpa [applyResult] using h
    | ok v => simp only [hconv]; exact WF_add_edges s v h
  | deleteEdges sel =>
    show WF (applyResult s (igraphmodule_Graph_delete_edges s sel))
    unfold igraphmodule_Graph_delete_edges
    cases hconv : igraphmodule_PyList_to_vector_t sel with
    | error e => simp only [hconv]; simpa [applyResult] using h
    | ok v => simp only [hconv]; exact WF_delete_edges s v h
  | setVertexAttr k vals => exact WF_set_vertex_attr s k vals h
  | setEdgeAttr k vals => exact WF_set_edge_attr s k vals h

/-! Claim theorems. -/

/-- C1: for every reachable graph handle, after every vertex/edge add or
delete operation completes, the length of every vertex-scope attribute
array equals the graph's current vertex count and the length of every
edge-scope attribute array equals the graph's current edge count. Stated
as: the length invariant holds of every state reached from a well-formed
handle by any sequence of host-reachable operations. -/
theorem attribute_arrays_track_counts (s : GraphState) (ops : List GraphOp)
    (h : WF s) : WF (runOps s ops) := by
  induction ops generalizing s with
  | nil => simpa [runOps] using h
  | cons op rest ih =>
    simp only [runOps, List.foldl_cons]
    exact ih (stepOp s op) (WF_stepOp s op h)

/-- Witness for C1: the invariant holds of a concrete handle carrying one
vertex-scope and one edge-scope attribute array, and still holds after a
mixed sequence of adds, deletes, attribute installs and a rejected call. -/
theorem attribute_arrays_track_counts_witness :
    WF ⟨⟨3, [(0, 1), (1, 2)], false⟩,
        ⟨[], [("name", [some 1, some 2, some 3])], [("w", [some 5, some 6])]⟩⟩ ∧
    WF (runOps
      ⟨⟨3, [(0, 1), (1, 2)], false⟩,
        ⟨[], [("name", [some 1, some 2, some 3])], [("w", [some 5, some 6])]⟩⟩
      [.addVertices 2, .setVertexAttr "color" (List.replicate 5 none),
       .addEdges [(3, 4)], .deleteVertices [0], .deleteEdges [0],
       .addVertices (-1)]) :=
  ⟨by decide,
   attribute_arrays_track_counts
     ⟨⟨3, [(0, 1), (1, 2)], false⟩,
       ⟨[], [("name", [some 1, some 2, some 3])], [("w", [some 5, some 6])]⟩⟩
     [.addVertices 2, .setVertexAttr "color" (List.replicate 5 none),
      .addEdges [(3, 4)], .deleteVertices [0], .deleteEdges [0],
      .addVertices (-1)]
     (by decide)⟩

/-- C4: for every negative integer n, add_vertices(n) fails with a
validation error raised before the native engine is invoked (the
native-call list is empty) and the graph handle is unchanged. -/
theorem add_vertices_negative_rejected (s : GraphState) (n : Int)
    (h : n < 0) :
    igraphmodule_Graph_add_vertices s n = .error .validationError ∧
    igraphmodule_Graph_add_vertices_nativeCalls n = [] ∧
    applyResult s (igraphmodule_Graph_add_vertices s n) = s := by
  refine ⟨?_, ?_, ?_⟩ <;>
    simp [igraphmodule_Graph_add_vertices,
      igraphmodule_Graph_add_vertices_nativeCalls, applyResult, h]

/-- Witness for C4: add_vertices(-1) on a concrete one-vertex handle is
rejected without a native call and leaves the handle unchanged. -/
theorem add_vertices_negative_rejected_witness :
    igraphmodule_Graph_add_vertices ⟨⟨1, [], false⟩, AttributeStore.empty⟩ (-1) =
      .error .validationError ∧
    igraphmodule_Graph_add_vertices_nativeCalls (-1) = [] ∧
    applyResult ⟨⟨1, [], false⟩, AttributeStore.empty⟩
      (igraphmodule_Graph_add_vertices ⟨⟨1, [], false⟩, AttributeStore.empty⟩ (-1)) =
      ⟨⟨1, [], false⟩, AttributeStore.empty⟩ :=
  add_vertices_negative_rejected ⟨⟨1, [], false⟩, AttributeStore.empty⟩ (-1)
    (by decide)

/-- C5: degree with a scalar selector returns the single integer degree of
that vertex; degree with the singleton list of the same vertex returns the
one-element list holding the same value; and a collection selector yields
the list of degrees, whose length equals the collection's length. -/
theorem degree_scalar_list_duality (g : IGraphT) (loops : Bool) (i : Nat)
    (l : List Nat) (hi : i < g.vcount) (hl : ∀ j ∈ l, j < g.vcount) :
    igraphmodule_Graph_degree g (.singleIdx i) loops =
      .scalar (igraph_degree_one g loops i) ∧
    igraphmodule_Graph_degree g (.listIdx [i]) loops =
      .listRes [igraph_degree_one g loops i] ∧
    igraphmodule_Graph_degree g (.listIdx l) loops =
      .listRes (l.map (igraph_degree_one g loops)) ∧
    (l.map (igraph_degree_one g loops)).length = l.length := by
  have hall : l.all (fun v => decide (v < g.vcount)) = true := by
    simp only [List.all_eq_true, decide_eq_true_eq]
    exact hl
  refine ⟨?_, ?_, ?_, List.length_map _ _⟩ <;>
    simp [igraphmodule_Graph_degree, igraphmodule_PyObject_to_vs_t,
      igraph_degree, hi, hall]

/-- Witness for C5: on the concrete path graph 0-1-2, degree(1) is the
scalar 2 and degree([1]) is the one-element list [2]. -/
theorem degree_scalar_list_duality_witness :
    igraphmodule_Graph_degree ⟨3, [(0, 1), (1, 2)], false⟩
      (VsInput.singleIdx 1) false = PyDegreeResult.scalar 2 ∧
    igraphmodule_Graph_degree ⟨3, [(0, 1), (1, 2)], false⟩
      (VsInput.listIdx [1]) false = PyDegreeResult.listRes [2] := by
  have h := degree_scalar_list_duality ⟨3, [(0, 1), (1, 2)], false⟩ false 1 [1]
    (by decide) (by decide)
  exact ⟨h.1.trans (by decide), h.2.1.trans (by decide)⟩

/-- C6: delete_vertices with an out-of-range vertex index raises an error
and leaves the handle fully unchanged: no partially-applied mutation is
observable, so the vertex count and every attribute-array length keep
their prior values. -/
theorem delete_vertices_out_of_range_atomic (s : GraphState) (sel : List Int)
    (x : Int) (hmem : x ∈ sel) (hge : (s.g.vcount : Int) ≤ x) :
    (∃ e, igraphmodule_Graph_delete_vertices s sel = .error e) ∧
    applyResult s (igraphmodule_Graph_delete_vertices s sel) = s := by
  unfold igraphmodule_Graph_delete_vertices igraphmodule_PyList_to_vector_t
  by_cases hnn : sel.all (fun x => decide (0 ≤ x)) = true
  · have h0 : (0 : Int) ≤ x := by
      have := List.all_eq_true.mp hnn x hmem
      simpa using this
    have hbad : ¬((sel.map Int.toNat).all
        (fun i => decide (i < s.g.vcount)) = true) := by
      intro hall
      have hmem2 : x.toNat ∈ sel.map Int.toNat :=
        List.mem_map.mpr ⟨x, hmem, rfl⟩
      have := List.all_eq_true.mp hall x.toNat hmem2
      simp only [decide_eq_true_eq] at this
      omega
    simp only [Bool.not_eq_true] at hbad
    simp [hnn, igraph_delete_vertices, hbad, applyResult]
  · simp only [Bool.not_eq_true] at hnn
    simp [hnn, applyResult]

/-- Witness for C6: delete_vertices([999]) on a concrete 5-vertex handle
with a length-5 vertex attribute array fails and leaves the handle (hence
the vertex count 5 and the array length 5) unchanged. -/
theorem delete_vertices_out_of_range_atomic_witness :
    (∃ e, igraphmodule_Graph_delete_vertices
      ⟨⟨5, [(0, 1)], false⟩, ⟨[], [("name", List.replicate 5 none)], [("w", [none])]⟩⟩
      [999] = .error e) ∧
    applyResult
      ⟨⟨5, [(0, 1)], false⟩, ⟨[], [("name", List.replicate 5 none)], [("w", [none])]⟩⟩
      (igraphmodule_Graph_delete_vertices
        ⟨⟨5, [(0, 1)], false⟩, ⟨[], [("name", List.replicate 5 none)], [("w", [none])]⟩⟩
        [999]) =
      ⟨⟨5, [(0, 1)], false⟩, ⟨[], [("name", List.replicate 5 none)], [("w", [none])]⟩⟩ :=
  delete_vertices_out_of_range_atomic
    ⟨⟨5, [(0, 1)], false⟩, ⟨[], [("name", List.replicate 5 none)], [("w", [none])]⟩⟩
    [999] 999 (by decide) (by decide)

/-- C2 counterexample: the claim says the cyclic-GC traverse visits only
the finalizer callback and the graph-scope attribute values and visits no
per-vertex or per-edge attribute store; on a handle with a destructor and
an attribute table, traverse in fact visits the vertex-scope and the
edge-scope attribute hashes as well. -/
theorem traverse_visits_vertex_and_edge_hashes :
    PyRef.vertexAttrHash ∈
      igraphmodule_Graph_traverse ⟨true, true, false, false, false, true⟩ ∧
    PyRef.edgeAttrHash ∈
      igraphmodule_Graph_traverse ⟨true, true, false, false, false, true⟩ := by
  decide

/-- C2 amended: traverse visits exactly the registered finalizer callback
(when present) and the three attribute hashes of g.attr — graph-, vertex-
and edge-scope — (when the attribute table is present), and never visits
the cached vertex/edge sequence views. -/
theorem traverse_visited_references (h : GraphHandleRefs) (r : PyRef) :
    (r ∈ igraphmodule_Graph_traverse h ↔
      (h.hasDestructor = true ∧ r = .destructorRef) ∨
      (h.hasAttrTable = true ∧
        (r = .graphAttrHash ∨ r = .vertexAttrHash ∨ r = .edgeAttrHash))) ∧
    PyRef.vseqRef ∉ igraphmodule_Graph_traverse h ∧
    PyRef.eseqRef ∉ igraphmodule_Graph_traverse h := by
  obtain ⟨d, a, v, e, w, c⟩ := h
  cases d <;> cases a <;> cases v <;> cases e <;> cases w <;> cases c <;>
    cases r <;> decide

/-- C3 counterexample: the claim says destroy releases the native graph
first, then invokes the finalizer, then releases the cached views and the
weak-reference bookkeeping; on a handle with weak references the actual
teardown clears the weak-reference bookkeeping strictly before the native
release. -/
theorem dealloc_clears_weakrefs_before_native_release :
    igraphmodule_Graph_dealloc_events ⟨true, true, true, true, true, true⟩ =
      [.clearWeakRefs, .nativeDestroy, .callFinalizer, .dropVseq, .dropEseq,
       .dropDestructor, .gcDel] ∧
    (igraphmodule_Graph_dealloc_events
        ⟨true, true, true, true, true, true⟩).indexOf .clearWeakRefs <
      (igraphmodule_Graph_dealloc_events
        ⟨true, true, true, true, true, true⟩).indexOf .nativeDestroy := by
  decide

/-- C3 amended: the teardown clears the weak-reference bookkeeping first
(when present), then releases the native graph structure — exactly once
per teardown — then invokes the finalizer callback (when callable), and
only then drops the cached vertex/edge sequence views. -/
theorem dealloc_event_order (h : GraphHandleRefs) :
    (igraphmodule_Graph_dealloc_events h).count .nativeDestroy = 1 ∧
    (h.hasWeakrefs = true →
      (igraphmodule_Graph_dealloc_events h).indexOf .clearWeakRefs <
        (igraphmodule_Graph_dealloc_events h).indexOf .nativeDestroy) ∧
    (h.destructorCallable = true →
      (igraphmodule_Graph_dealloc_events h).indexOf .nativeDestroy <
        (igraphmodule_Graph_dealloc_events h).indexOf .callFinalizer) ∧
    (igraphmodule_Graph_dealloc_events h).indexOf .nativeDestroy <
      (igraphmodule_Graph_dealloc_events h).indexOf .dropVseq := by
  obtain ⟨d, a, v, e, w, c⟩ := h
  cases d <;> cases a <;> cases v <;> cases e <;> cases w <;> cases c <;>
    decide

/-- Witness for the amended C3: on a handle with weak references and a
callable finalizer, the native release occurs exactly once and strictly
before the finalizer call. -/
theorem dealloc_event_order_witness :
    (igraphmodule_Graph_dealloc_events
      ⟨true, true, true, true, true, false⟩).count
        LifecycleEvent.nativeDestroy = 1 ∧
    (igraphmodule_Graph_dealloc_events
        ⟨true, true, true, true, true, false⟩).indexOf
        LifecycleEvent.clearWeakRefs <
      (igraphmodule_Graph_dealloc_events
        ⟨true, true, true, true, true, false⟩).indexOf
        LifecycleEvent.nativeDestroy :=
  ⟨(dealloc_event_order ⟨true, true, true, true, true, false⟩).1,
   (dealloc_event_order ⟨true, true, true, true, true, false⟩).2.1 rfl⟩

/-- C7: for every n-ary operator — disjoint_union, union and intersection
— an iterable argument is processed as a collection of graphs (failing if
an element is not a graph); a non-iterable Graph argument gives the
pairwise operator; and any other argument yields Py_NotImplemented, the
type-mismatch signal. -/
theorem nary_operator_dispatch (self : IGraphT) (other : PyArg) :
    (∀ elems, other.asIterable = some elems →
      (∀ gs, igraphmodule_PyIter_to_vector_ptr_t elems = some gs →
        igraphmodule_Graph_disjoint_union self other =
          .graphResult ⟨igraph_disjoint_union_many gs, AttributeStore.empty⟩ ∧
        igraphmodule_Graph_union self other =
          .graphResult ⟨igraph_union_many gs, AttributeStore.empty⟩ ∧
        igraphmodule_Graph_intersection self other =
          .graphResult ⟨igraph_intersection_many gs, AttributeStore.empty⟩) ∧
      (igraphmodule_PyIter_to_vector_ptr_t elems = none →
        igraphmodule_Graph_disjoint_union self other = .conversionFailed ∧
        igraphmodule_Graph_union self other = .conversionFailed ∧
        igraphmodule_Graph_intersection self other = .conversionFailed)) ∧
    (other.asIterable = none → ∀ g, other.asGraph = some g →
      igraphmodule_Graph_disjoint_union self other =
        .graphResult ⟨igraph_disjoint_union2 self g, AttributeStore.empty⟩ ∧
      igraphmodule_Graph_union self other =
        .graphResult ⟨igraph_union2 self g, AttributeStore.empty⟩ ∧
      igraphmodule_Graph_intersection self other =
        .graphResult ⟨igraph_intersection2 self g, AttributeStore.empty⟩) ∧
    (other.asIterable = none → other.asGraph = none →
      igraphmodule_Graph_disjoint_union self other = .notImplemented ∧
      igraphmodule_Graph_union self other = .notImplemented ∧
      igraphmodule_Graph_intersection self other = .notImplemented) := by
  refine ⟨?_, ?_, ?_⟩ <;> intros <;>
    simp_all [igraphmodule_Graph_disjoint_union, igraphmodule_Graph_union,
      igraphmodule_Graph_intersection]

/-- Witness for C7: a non-iterable, non-graph argument makes all three
operators return the Py_NotImplemented type-mismatch signal, and an
iterable of two graphs is processed as a collection by disjoint_union and
intersection alike. -/
theorem nary_operator_dispatch_witness :
    (igraphmodule_Graph_disjoint_union ⟨2, [(0, 1)], false⟩ ⟨none, none⟩ =
        NaryResult.notImplemented ∧
      igraphmodule_Graph_union ⟨2, [(0, 1)], false⟩ ⟨none, none⟩ =
        NaryResult.notImplemented ∧
      igraphmodule_Graph_intersection ⟨2, [(0, 1)], false⟩ ⟨none, none⟩ =
        NaryResult.notImplemented) ∧
    (igraphmodule_Graph_disjoint_union ⟨2, [(0, 1)], false⟩
        ⟨none, some [.graphElem ⟨1, [], false⟩, .graphElem ⟨2, [(0, 1)], false⟩]⟩ =
      .graphResult
        ⟨igraph_disjoint_union_many [⟨1, [], false⟩, ⟨2, [(0, 1)], false⟩],
         AttributeStore.empty⟩) ∧
    (igraphmodule_Graph_intersection ⟨2, [(0, 1)], false⟩
        ⟨none, some [.graphElem ⟨1, [], false⟩, .graphElem ⟨2, [(0, 1)], false⟩]⟩ =
      .graphResult
        ⟨igraph_intersection_many [⟨1, [], false⟩, ⟨2, [(0, 1)], false⟩],
         AttributeStore.empty⟩) :=
  ⟨(nary_operator_dispatch ⟨2, [(0, 1)], false⟩ ⟨none, none⟩).2.2 rfl rfl,
   (((nary_operator_dispatch ⟨2, [(0, 1)], false⟩
        ⟨none, some [.graphElem ⟨1, [], false⟩, .graphElem ⟨2, [(0, 1)], false⟩]⟩).1
      [.graphElem ⟨1, [], false⟩, .graphElem ⟨2, [(0, 1)], false⟩] rfl).1
      [⟨1, [], false⟩, ⟨2, [(0, 1)], false⟩] rfl).1,
   (((nary_operator_dispatch ⟨2, [(0, 1)], false⟩
        ⟨none, some [.graphElem ⟨1, [], false⟩, .graphElem ⟨2, [(0, 1)], false⟩]⟩).1
      [.graphElem ⟨1, [], false⟩, .graphElem ⟨2, [(0, 1)], false⟩] rfl).1
      [⟨1, [], false⟩, ⟨2, [(0, 1)], false⟩] rfl).2.2⟩

/-- C8: disjoint_union of two graphs yields a new handle whose vertex
count is the sum of the two vertex counts, whose edge count is the sum of
the two edge counts, and whose attribute store is empty in all three
scopes. -/
theorem disjoint_union_counts_and_empty_attrs (g1 g2 : IGraphT) :
    igraphmodule_Graph_disjoint_union g1 (PyArg.ofGraph g2) =
      .graphResult ⟨igraph_disjoint_union2 g1 g2, AttributeStore.empty⟩ ∧
    (igraph_disjoint_union2 g1 g2).vcount = g1.vcount + g2.vcount ∧
    (igraph_disjoint_union2 g1 g2).ecount = g1.ecount + g2.ecount ∧
    AttributeStore.empty.graphAttrs = [] ∧
    AttributeStore.empty.vertexAttrs = [] ∧
    AttributeStore.empty.edgeAttrs = [] := by
  refine ⟨rfl, rfl, ?_, rfl, rfl, rfl⟩
  simp [igraph_disjoint_union2, IGraphT.ecount]

/-- C9 counterexample: the claim says every binding failure path reads and
copies the native error slot immediately after the failing native call,
before any cleanup call; on the failure path of betweenness the selector
is destroyed between the failing call and the capture. -/
theorem error_capture_not_immediate_on_betweenness_path :
    betweenness_failureTrace ∈ bindingFailureTraces ∧
    captureImmediatelyAfterFailure betweenness_failureTrace = false := by
  decide

/-- C9 amended: on the failure paths of delete_vertices and get_adjacency
the native error slot is read and copied immediately after the failing
native call, before the conversion buffers are destroyed; but this does
not hold of every binding failure path (betweenness and maxflow_value
destroy a buffer first). -/
theorem cited_paths_capture_before_cleanup :
    captureImmediatelyAfterFailure delete_vertices_failureTrace = true ∧
    captureImmediatelyAfterFailure get_adjacency_failureTrace = true ∧
    captureImmediatelyAfterFailure maxflow_value_failureTrace = false := by
  decide

/-- C10: the bfs binding's host-side validation raises the invalid-vertex
error exactly when the root id is negative or strictly greater than the
vertex count; a root id equal to the vertex count passes the binding's
validation and is handed to the native engine. -/
theorem bfs_root_validation (vcount : Nat) (vid : Int) :
    (igraphmodule_Graph_bfs vcount vid = .hostError ↔
      (vid < 0 ∨ (vcount : Int) < vid)) ∧
    igraphmodule_Graph_bfs vcount (vcount : Int) =
      .handedToNative (vcount : Int) := by
  constructor
  · unfold igraphmodule_Graph_bfs
    split
    · next hcond => simp [hcond]
    · next hcond => simp [hcond]
  · unfold igraphmodule_Graph_bfs
    have hok : ¬((vcount : Int) < 0 ∨ (vcount : Int) < (vcount : Int)) := by
      omega
    simp [hok]

end IGraphBinding
